import Mathlib

/-
Verification of the functional-array / autodiff / JIT specification of the
JAX tutorial repository.  The notebooks only call into the external library
(jax, jax.numpy, jax.random); the specification describes the minimal
library those calls assume.  Each component below is therefore modelled
from the specification's words, and the concrete scenarios printed in the
notebooks (slice updates, broadcasting examples, gradient values, cache
hits, the side-effect counter, trace-time control-flow failures) are
re-checked against the model.
-/

namespace JaxModel

/-- Modelled from the spec: the error taxonomy of §7 for array operations —
`ShapeMismatch` for incompatible shapes in reshape/update, `BroadcastError`
for incompatible shapes in elementwise operations. -/
inductive ArrError where
  | ShapeMismatch
  | BroadcastError
  deriving DecidableEq, Repr

/-- Modelled from the spec: an immutable Array value — a shape (ordered
sequence of non-negative integers) and a flat row-major data buffer.
Numeric entries are modelled as rationals.  The real implementation lives
in the external library; the notebooks only construct and consume such
values. -/
structure Arr where
  shape : List Nat
  data : List ℚ
  deriving DecidableEq, Repr

/-- The buffer-size invariant of §3: the buffer holds exactly
`product(shape)` elements. -/
def Arr.wf (a : Arr) : Prop := a.data.length = a.shape.prod

instance (a : Arr) : Decidable a.wf := by
  unfold Arr.wf
  infer_instance

/-- Modelled from the spec: `update(array, index_or_slice, new_values)` —
the functional update helper behind `arr.at[...].set(...)` in the
notebook.  The addressed region is the flat slice
`[start, start + new_values.length)`; the call is validated so that the
replacement fits inside the buffer (else a `ShapeMismatch` failure), and on
success a new Array is built from the old one with the region replaced. -/
def update (a : Arr) (start : Nat) (v : List ℚ) : Except ArrError Arr :=
  if start + v.length ≤ a.data.length then
    Except.ok ⟨a.shape, a.data.take start ++ v ++ a.data.drop (start + v.length)⟩
  else
    Except.error ArrError.ShapeMismatch

/-- Modelled from the spec: dimension-count mismatch is resolved by
left-padding the shorter shape with size-1 dimensions. -/
def padShape (s : List Nat) (n : Nat) : List Nat :=
  List.replicate (n - s.length) 1 ++ s

/-- Modelled from the spec: two equal-length dimension lists are
broadcast-compatible when each pair of corresponding dimensions is equal or
one of them is 1. -/
def dimsCompatible : List Nat → List Nat → Bool
  | [], [] => true
  | a :: as, b :: bs => (a == b || a == 1 || b == 1) && dimsCompatible as bs
  | _, _ => false

/-- Modelled from the spec: the broadcast rule of §4.1 — left-pad the
shorter shape with size-1 dimensions, then require each pair of
corresponding dimensions to be equal or 1; the result shape takes the max
of each pair; otherwise the operation fails with `BroadcastError`. -/
def broadcastShapes (A B : List Nat) : Except ArrError (List Nat) :=
  let n := max A.length B.length
  if dimsCompatible (padShape A n) (padShape B n) then
    Except.ok (List.zipWith max (padShape A n) (padShape B n))
  else
    Except.error ArrError.BroadcastError

/-- Row-major multi-index of flat position `i` in a buffer of the given
shape. -/
def unflattenIdx : List Nat → Nat → List Nat
  | [], _ => []
  | _ :: ds, i => (i / ds.prod) :: unflattenIdx ds (i % ds.prod)

/-- Row-major flat position of a multi-index in a buffer of the given
shape. -/
def flattenIdx : List Nat → List Nat → Nat
  | _ :: ds, i :: is => i * ds.prod + flattenIdx ds is
  | _, _ => 0

/-- Modelled from the spec: reading an operand under broadcasting — the
operand's shape is left-padded to the result rank, and along every size-1
dimension the index collapses to 0 so the single entry is reused. -/
def breadAt (a : Arr) (n : Nat) (idx : List Nat) : ℚ :=
  let ps := padShape a.shape n
  a.data.getD (flattenIdx ps (List.zipWith (fun p j => if p = 1 then 0 else j) ps idx)) 0

/-- Modelled from the spec: a binary elementwise operation between two
Arrays — broadcast the shapes per §4.1 (failing with `BroadcastError` when
incompatible) and combine the broadcast-read entries pointwise. -/
def ewBinary (op : ℚ → ℚ → ℚ) (a b : Arr) : Except ArrError Arr :=
  match broadcastShapes a.shape b.shape with
  | Except.error e => Except.error e
  | Except.ok s =>
      Except.ok ⟨s, (List.range s.prod).map (fun i =>
        op (breadAt a s.length (unflattenIdx s i)) (breadAt b s.length (unflattenIdx s i)))⟩

/-- Elementwise addition, as in `arr + row` in the notebook. -/
def addArr (a b : Arr) : Except ArrError Arr := ewBinary (fun x y => x + y) a b

/-- Modelled from the spec: the trace graph of §3/§4.2 — each node is one
primitive operation with references to its inputs; leaves are the
function's numbered arguments and literal constants.  The primitives are
the ones the notebooks' traced functions use (`+`, `-`, `*`, `**`). -/
inductive Expr where
  | var : Nat → Expr
  | const : ℚ → Expr
  | add : Expr → Expr → Expr
  | sub : Expr → Expr → Expr
  | mul : Expr → Expr → Expr
  | npow : Expr → Nat → Expr
  deriving DecidableEq, Repr

/-- Forward evaluation of a trace under an assignment of the numbered
arguments. -/
def evalE : Expr → (Nat → ℚ) → ℚ
  | Expr.var i, ρ => ρ i
  | Expr.const c, _ => c
  | Expr.add a b, ρ => evalE a ρ + evalE b ρ
  | Expr.sub a b, ρ => evalE a ρ - evalE b ρ
  | Expr.mul a b, ρ => evalE a ρ * evalE b ρ
  | Expr.npow a n, ρ => (evalE a ρ) ^ n

/-- Modelled from the spec: reverse-mode accumulation of §4.2 — walk the
trace backwards from the output, propagating the upstream cotangent `ct`
through each primitive via the chain rule and summing the contributions
that reach argument `j`. -/
def backprop : Expr → (Nat → ℚ) → ℚ → Nat → ℚ
  | Expr.var i, _, ct, j => if j = i then ct else 0
  | Expr.const _, _, _, _ => 0
  | Expr.add a b, ρ, ct, j => backprop a ρ ct j + backprop b ρ ct j
  | Expr.sub a b, ρ, ct, j => backprop a ρ ct j - backprop b ρ ct j
  | Expr.mul a b, ρ, ct, j =>
      backprop a ρ (ct * evalE b ρ) j + backprop b ρ (ct * evalE a ρ) j
  | Expr.npow a n, ρ, ct, j =>
      backprop a ρ (ct * ((n : ℚ) * (evalE a ρ) ^ (n - 1))) j

/-- Modelled from the spec: `gradient(f)` — reverse accumulation over the
trace of `f`, seeded with derivative 1 at the output; `j` selects the
argument the partial derivative is taken with respect to. -/
def grad (e : Expr) (ρ : Nat → ℚ) (j : Nat) : ℚ := backprop e ρ 1 j

/-- Modelled from the spec: multi-argument differentiation — one gradient
entry per requested argument index, each independently reverse-accumulated
over the same trace (the `argnums` form of `grad` in the notebook). -/
def gradMulti (e : Expr) (ρ : Nat → ℚ) (argnums : List Nat) : List ℚ :=
  argnums.map (grad e ρ)

/-- Modelled from the spec: the combined `value_and_gradient` variant —
one pass over the trace returning both the forward value and the
derivative propagated towards every argument, avoiding duplicate work. -/
def value_and_grad : Expr → (Nat → ℚ) → ℚ × (Nat → ℚ)
  | Expr.var i, ρ => (ρ i, fun j => if j = i then 1 else 0)
  | Expr.const c, _ => (c, fun _ => 0)
  | Expr.add a b, ρ =>
      let pa := value_and_grad a ρ
      let pb := value_and_grad b ρ
      (pa.1 + pb.1, fun j => pa.2 j + pb.2 j)
  | Expr.sub a b, ρ =>
      let pa := value_and_grad a ρ
      let pb := value_and_grad b ρ
      (pa.1 - pb.1, fun j => pa.2 j - pb.2 j)
  | Expr.mul a b, ρ =>
      let pa := value_and_grad a ρ
      let pb := value_and_grad b ρ
      (pa.1 * pb.1, fun j => pb.1 * pa.2 j + pa.1 * pb.2 j)
  | Expr.npow a n, ρ =>
      let pa := value_and_grad a ρ
      (pa.1 ^ n, fun j => (n : ℚ) * pa.1 ^ (n - 1) * pa.2 j)

/-- Central finite-difference approximation of the derivative of a
one-argument trace at `x` with step `h`, used by the spec as the reference
the gradient must match within tolerance. -/
def fdiffCentral (e : Expr) (x h : ℚ) : ℚ :=
  (evalE e (fun _ => x + h) - evalE e (fun _ => x - h)) / (2 * h)

/-- The traced function of the notebook's first gradient example:
`f(x) = x**2`, argument 0 playing the role of `x`. -/
def fSquare : Expr := Expr.npow (Expr.var 0) 2

/-- The traced function of the notebook's partial-derivative example:
`h(x, y) = x**2 + 3*x*y + y**2`, arguments 0 and 1 playing `x` and `y`. -/
def hPoly : Expr :=
  Expr.add
    (Expr.add (Expr.npow (Expr.var 0) 2)
      (Expr.mul (Expr.mul (Expr.const 3) (Expr.var 0)) (Expr.var 1)))
    (Expr.npow (Expr.var 1) 2)

/-- Environment binding argument 0 to `x` and argument 1 to `y`. -/
def env2 (x y : ℚ) : Nat → ℚ := fun i => if i = 0 then x else y

/-- Modelled from the spec: differentiating a scalar-valued function of an
Array argument — the Array's entries are the numbered arguments of the
trace, and the gradient is assembled into an Array of the argument's
shape, one partial derivative per buffer position. -/
def gradArr (e : Expr) (x : Arr) : Arr :=
  ⟨x.shape, (List.range x.data.length).map (grad e (fun k => x.data.getD k 0))⟩

/-- A symbolic `m × n` matrix whose entries are the numbered arguments, in
row-major order: the placeholder the autodiff engine substitutes for the
Array argument while replaying the function. -/
def symVarMatrix (m n : Nat) : List Expr :=
  (List.range (m * n)).map Expr.var

/-- Sum of a list of traced values. -/
def sumE (l : List Expr) : Expr :=
  l.foldl Expr.add (Expr.const 0)

/-- Symbolic matrix product of an `m × k` and a `k × n` matrix, both given
as row-major entry lists: entry `(i, j)` of the result is
`Σ_l a[i,l] * b[l,j]`, as traced for `a @ b`. -/
def matMulE (m k n : Nat) (a b : List Expr) : List Expr :=
  (List.range m).flatMap (fun i => (List.range n).map (fun j =>
    sumE ((List.range k).map (fun l =>
      Expr.mul (a.getD (i * k + l) (Expr.const 0)) (b.getD (l * n + j) (Expr.const 0))))))

/-- Symbolic transpose of an `m × n` row-major matrix, as traced for
`W.T`. -/
def transposeE (m n : Nat) (a : List Expr) : List Expr :=
  (List.range n).flatMap (fun j => (List.range m).map (fun i =>
    a.getD (i * n + j) (Expr.const 0)))

/-- Symbolic trace (sum of the diagonal) of an `n × n` row-major matrix,
as traced for `jnp.trace`. -/
def traceE (n : Nat) (a : List Expr) : Expr :=
  sumE ((List.range n).map (fun i => a.getD (i * n + i) (Expr.const 0)))

/-- The notebook's `matrix_function(W) = jnp.trace(W @ W.T)`, replayed on
the symbolic `n × n` matrix placeholder to record its trace. -/
def matrix_function (n : Nat) : Expr :=
  traceE n (matMulE n n n (symVarMatrix n n) (transposeE n n (symVarMatrix n n)))

/-- Modelled from the spec: the cache key of §4.3 — the concrete shapes
and dtypes of the non-static arguments plus the literal values of the
arguments declared static. -/
structure Sig where
  shapes : List (List Nat)
  dtypes : List String
  statics : List Int
  deriving DecidableEq, Repr

/-- Modelled from the spec: the JIT cache — the table of compiled plans
keyed by signature, together with the number of trace/build events that
have occurred. -/
structure JitState where
  plans : List Sig
  builds : Nat
  deriving DecidableEq, Repr

/-- A freshly wrapped `compile(f)`: empty plan table, no builds yet. -/
def initJit : JitState := ⟨[], 0⟩

/-- Modelled from the spec: one call through `compile(f)` — compute the
signature; on a hit execute the stored plan directly without retracing, on
a miss perform one abstract trace/build, store the plan under the
signature and execute it.  Returns the new cache state and whether the
call was a hit. -/
def jitCall (st : JitState) (sig : Sig) : JitState × Bool :=
  if sig ∈ st.plans then (st, true)
  else (⟨sig :: st.plans, st.builds + 1⟩, false)

/-- A sequence of calls through the same compiled function, returning the
final cache state and the hit/miss outcome of each call in order. -/
def jitCalls (st : JitState) : List Sig → JitState × List Bool
  | [] => (st, [])
  | s :: rest =>
      let r := jitCall st s
      let r2 := jitCalls r.1 rest
      (r2.1, r.2 :: r2.2)

/-- Modelled from the spec: a compiled function whose host code performs a
side effect — incrementing a global counter, as in the notebook's
`bad_side_effect`.  The host code runs only while tracing on a miss; a
cache hit executes the traced operations of the stored plan only, so the
counter is untouched.  Returns the new cache state and the new counter. -/
def jitCallCounter (st : JitState) (counter : Nat) (sig : Sig) : JitState × Nat :=
  if sig ∈ st.plans then (st, counter)
  else (⟨sig :: st.plans, st.builds + 1⟩, counter + 1)

/-- A sequence of calls through the side-effecting compiled function. -/
def jitCallsCounter (st : JitState) (counter : Nat) : List Sig → JitState × Nat
  | [] => (st, counter)
  | s :: rest =>
      let r := jitCallCounter st counter s
      jitCallsCounter r.1 r.2 rest

/-- Modelled from the spec: the trace-time error of §4.2/§4.3 raised when
host-level control flow depends on a traced value. -/
inductive TraceError where
  | UnsupportedTraceControlFlow
  deriving DecidableEq, Repr

/-- Modelled from the spec: a host-level expression over the wrapped
function's numbered arguments, evaluated while tracing. -/
inductive HExpr where
  | arg : Nat → HExpr
  | lit : ℚ → HExpr
  | add : HExpr → HExpr → HExpr
  | mul : HExpr → HExpr → HExpr
  deriving DecidableEq, Repr

/-- Whether a host expression mentions argument `i`. -/
def HExpr.mentions : HExpr → Nat → Bool
  | HExpr.arg k, i => k == i
  | HExpr.lit _, _ => false
  | HExpr.add a b, i => a.mentions i || b.mentions i
  | HExpr.mul a b, i => a.mentions i || b.mentions i

/-- Modelled from the spec: trace-time evaluation of a host expression.
The tracing environment binds each argument to `some v` when its concrete
value is known while tracing (a static argument) and to `none` when the
argument was substituted by a shape/dtype-only placeholder (a traced,
non-static argument); any operation touching a placeholder yields a
placeholder. -/
def teval : HExpr → (Nat → Option ℚ) → Option ℚ
  | HExpr.arg i, ρ => ρ i
  | HExpr.lit c, _ => some c
  | HExpr.add a b, ρ =>
      match teval a ρ, teval b ρ with
      | some x, some y => some (x + y)
      | _, _ => none
  | HExpr.mul a b, ρ =>
      match teval a ρ, teval b ρ with
      | some x, some y => some (x * y)
      | _, _ => none

/-- Modelled from the spec: the host-level control skeleton of a function
handed to `gradient` or `compile` — returns, host conditionals testing
whether a host expression is positive, and host `for` loops whose
iteration count is a host expression. -/
inductive HProg where
  | ret : HExpr → HProg
  | hostIf : HExpr → HProg → HProg → HProg
  | hostFor : HExpr → HProg → HProg
  deriving DecidableEq, Repr

/-- Modelled from the spec: tracing a function's host control skeleton for
`gradient(f)` or `compile(f)`.  A host conditional or loop bound whose
value is a placeholder cannot be resolved to a concrete branch or
iteration count, so tracing fails there with
`UnsupportedTraceControlFlow`; when the value is concrete the branch is
taken (or the loop unrolled) and tracing continues. -/
def traceProg : HProg → (Nat → Option ℚ) → Except TraceError Unit
  | HProg.ret _, _ => Except.ok ()
  | HProg.hostIf c t e, ρ =>
      match teval c ρ with
      | some v => if 0 < v then traceProg t ρ else traceProg e ρ
      | none => Except.error TraceError.UnsupportedTraceControlFlow
  | HProg.hostFor b body, ρ =>
      match teval b ρ with
      | some _ => traceProg body ρ
      | none => Except.error TraceError.UnsupportedTraceControlFlow

/-- The notebook's `bad_python_if(x)`: a host `if` on `jnp.sum(x) > 5.0`,
i.e. on the positivity of `x_sum + (-5)`, a condition computed from the
traced argument 0. -/
def bad_python_if : HProg :=
  HProg.hostIf (HExpr.add (HExpr.arg 0) (HExpr.lit (-5)))
    (HProg.ret (HExpr.arg 0)) (HProg.ret (HExpr.arg 0))

/-- The notebook's `bad_dynamic_loop(x, num_iterations)`: a host `for`
loop whose bound is argument 1 iterating `x = x * 1.1 + 0.01`. -/
def bad_dynamic_loop : HProg :=
  HProg.hostFor (HExpr.arg 1)
    (HProg.ret (HExpr.add (HExpr.mul (HExpr.arg 0) (HExpr.lit (11/10))) (HExpr.lit (1/100))))

/-- The tracing environment of the notebook's failing calls: every
argument is non-static, so each is a placeholder while tracing. -/
def allTracedEnv : Nat → Option ℚ := fun _ => none

/-- The tracing environment of the notebook's `good_static_loop(x, 5)`:
argument 0 (`x`) is a placeholder, argument 1 (`num_iterations`) was
marked static via `static_argnums=(1,)` so its concrete value 5 is known
while tracing. -/
def staticBoundEnv : Nat → Option ℚ := fun i => if i = 1 then some 5 else none

/-- Modelled from the spec: a PRNG key — a fixed-size opaque bit pattern,
modelled as a 64-bit natural number. -/
def keyBits : Nat := 2 ^ 64

/-- Modelled from the spec: the fixed mixing function behind key
derivation (the real derivation is the external library's counter-based
construction); it folds the key and a stream constant into a fresh 64-bit
pattern. -/
def mixKey (k c : Nat) : Nat :=
  (k * 6364136223846793005 + c * 1442695040888963407 + 1013904223) % keyBits

/-- Modelled from the spec: `split(key)` deterministically derives exactly
two new keys from one key — a pure function of the key value alone, as in
`random.split` in the notebook. -/
def split (k : Nat) : Nat × Nat := (mixKey k 1, mixKey k 2)

instance {ε α : Type} [DecidableEq ε] [DecidableEq α] : DecidableEq (Except ε α) :=
  fun x y =>
    match x, y with
    | Except.ok a, Except.ok b =>
        if h : a = b then isTrue (by rw [h]) else isFalse (by intro hc; cases hc; exact h rfl)
    | Except.error a, Except.error b =>
        if h : a = b then isTrue (by rw [h]) else isFalse (by intro hc; cases hc; exact h rfl)
    | Except.ok _, Except.error _ => isFalse (by intro hc; cases hc)
    | Except.error _, Except.ok _ => isFalse (by intro hc; cases hc)

/-- Base case of `flattenIdx`, convenient for concrete evaluation. -/
@[simp] lemma flattenIdx_nil (l : List Nat) : flattenIdx [] l = 0 := by
  cases l <;> rfl

/-- Length of a left-padded shape. -/
lemma length_padShape (s : List Nat) (n : Nat) (h : s.length ≤ n) :
    (padShape s n).length = n := by
  simp [padShape]
  omega

/-- `dimsCompatible` holds exactly when every pair of corresponding
dimensions is equal or one of them is 1. -/
lemma dimsCompatible_iff (A : List Nat) :
    ∀ B : List Nat, A.length = B.length →
      (dimsCompatible A B = true ↔ ∀ p ∈ A.zip B, p.1 = p.2 ∨ p.1 = 1 ∨ p.2 = 1) := by
  induction A with
  | nil =>
      intro B h
      cases B with
      | nil => simp [dimsCompatible]
      | cons b bs => simp at h
  | cons a as ih =>
      intro B h
      cases B with
      | nil => simp at h
      | cons b bs =>
          have hlen : as.length = bs.length := by simpa using h
          have ihs := ih bs hlen
          simp only [dimsCompatible, Bool.and_eq_true, Bool.or_eq_true, beq_iff_eq,
            List.zip_cons_cons, List.mem_cons]
          constructor
          · rintro ⟨hab, hrest⟩ p hp
            rcases hp with hp | hp
            · subst hp
              tauto
            · exact (ihs.mp hrest) p hp
          · intro hall
            refine ⟨?_, ihs.mpr (fun p hp => hall p (Or.inr hp))⟩
            have := hall (a, b) (Or.inl rfl)
            tauto

end JaxModel

namespace JaxModel

/-- C1: for every Array `a`, addressed region `[start, start + v.length)`
whose replacement values `v` fit inside the buffer, `update a start v`
returns a new Array with the same shape that agrees with `a` at every
position outside the region and with `v` at the positions inside it; the
input `a`, a pure value of the embedding, is untouched by the call. -/
theorem update_frame (a : Arr) (start : Nat) (v : List ℚ)
    (hfit : start + v.length ≤ a.data.length) :
    ∃ r, update a start v = Except.ok r ∧
      r.shape = a.shape ∧
      r.data.length = a.data.length ∧
      (∀ j, j < start ∨ start + v.length ≤ j → r.data[j]? = a.data[j]?) ∧
      (∀ j, start ≤ j → j < start + v.length → r.data[j]? = v[j - start]?) := by
  refine ⟨⟨a.shape, a.data.take start ++ v ++ a.data.drop (start + v.length)⟩,
    ?_, rfl, ?_, ?_, ?_⟩
  · unfold update
    rw [if_pos hfit]
  · simp only [List.length_append, List.length_take, List.length_drop]
    omega
  · intro j hj
    have htl : (a.data.take start).length = start := by
      simp only [List.length_take]
      omega
    rcases hj with hj | hj
    · have h1 : j < (a.data.take start ++ v).length := by
        simp only [List.length_append, htl]
        omega
      have h2 : j < (a.data.take start).length := by omega
      show (a.data.take start ++ v ++ a.data.drop (start + v.length))[j]? = a.data[j]?
      rw [List.getElem?_append_left h1, List.getElem?_append_left h2,
        List.getElem?_take_of_lt hj]
    · have h1 : (a.data.take start ++ v).length ≤ j := by
        simp only [List.length_append, htl]
        omega
      show (a.data.take start ++ v ++ a.data.drop (start + v.length))[j]? = a.data[j]?
      rw [List.getElem?_append_right h1, List.getElem?_drop]
      congr 1
      simp only [List.length_append, htl]
      omega
  · intro j hj1 hj2
    have htl : (a.data.take start).length = start := by
      simp only [List.length_take]
      omega
    have h1 : j < (a.data.take start ++ v).length := by
      simp only [List.length_append, htl]
      omega
    show (a.data.take start ++ v ++ a.data.drop (start + v.length))[j]? = v[j - start]?
    rw [List.getElem?_append_left h1, List.getElem?_append_right (by omega : (a.data.take start).length ≤ j), htl]

/-- Witness for `update_frame`: the notebook's slice update
`jnp.array([1,2,3,4]).at[1:3].set(jnp.array([88,77]))`. -/
theorem update_frame_witness :
    ∃ r, update ⟨[4], [1, 2, 3, 4]⟩ 1 [88, 77] = Except.ok r ∧
      r.shape = ([4] : List Nat) ∧
      r.data.length = ([1, 2, 3, 4] : List ℚ).length ∧
      (∀ j, j < 1 ∨ 1 + ([88, 77] : List ℚ).length ≤ j →
        r.data[j]? = ([1, 2, 3, 4] : List ℚ)[j]?) ∧
      (∀ j, 1 ≤ j → j < 1 + ([88, 77] : List ℚ).length →
        r.data[j]? = ([88, 77] : List ℚ)[j - 1]?) :=
  update_frame ⟨[4], [1, 2, 3, 4]⟩ 1 [88, 77] (by decide)

/-- C2: a binary elementwise operation on two Arrays succeeds exactly
when, after left-padding the shorter shape with size-1 dimensions, every
pair of corresponding dimensions is equal or one of them is 1; on success
the result shape takes the max of each pair, otherwise the operation fails
with `BroadcastError`.  In particular the notebook's `arr + row` with
shapes (2,3) and (3,) succeeds with shape (2,3) (and the broadcast data
the notebook prints), while shapes (2,3) and (4,) fail with
`BroadcastError`. -/
theorem ew_broadcast_rule (op : ℚ → ℚ → ℚ) (a b : Arr) :
    ((∃ r, ewBinary op a b = Except.ok r) ↔
      ∀ p ∈ (padShape a.shape (max a.shape.length b.shape.length)).zip
              (padShape b.shape (max a.shape.length b.shape.length)),
        p.1 = p.2 ∨ p.1 = 1 ∨ p.2 = 1) ∧
    (∀ r, ewBinary op a b = Except.ok r →
      r.shape = List.zipWith max
        (padShape a.shape (max a.shape.length b.shape.length))
        (padShape b.shape (max a.shape.length b.shape.length))) ∧
    (¬ (∀ p ∈ (padShape a.shape (max a.shape.length b.shape.length)).zip
              (padShape b.shape (max a.shape.length b.shape.length)),
        p.1 = p.2 ∨ p.1 = 1 ∨ p.2 = 1) →
      ewBinary op a b = Except.error ArrError.BroadcastError) ∧
    (∃ r, addArr ⟨[2, 3], [1, 2, 3, 4, 5, 6]⟩ ⟨[3], [10, 20, 30]⟩ = Except.ok r ∧
      r.shape = [2, 3] ∧ r.data = [11, 22, 33, 14, 25, 36]) ∧
    addArr ⟨[2, 3], [1, 2, 3, 4, 5, 6]⟩ ⟨[4], [1, 1, 1, 1]⟩ =
      Except.error ArrError.BroadcastError := by
  have hlen : (padShape a.shape (max a.shape.length b.shape.length)).length =
      (padShape b.shape (max a.shape.length b.shape.length)).length := by
    rw [length_padShape a.shape _ (le_max_left _ _),
      length_padShape b.shape _ (le_max_right _ _)]
  have hiff := dimsCompatible_iff
    (padShape a.shape (max a.shape.length b.shape.length))
    (padShape b.shape (max a.shape.length b.shape.length)) hlen
  refine ⟨?_, ?_, ?_, ?_, ?_⟩
  · rw [← hiff]
    unfold ewBinary broadcastShapes
    constructor
    · rintro ⟨r, hr⟩
      by_contra hc
      rw [Bool.not_eq_true] at hc
      simp only [hc, if_neg] at hr
      simp at hr
    · intro hc
      simp only [hc, if_pos]
      exact ⟨_, rfl⟩
  · intro r hr
    unfold ewBinary broadcastShapes at hr
    by_cases hc : dimsCompatible
        (padShape a.shape (max a.shape.length b.shape.length))
        (padShape b.shape (max a.shape.length b.shape.length)) = true
    · simp only [hc, if_pos] at hr
      cases hr
      rfl
    · rw [Bool.not_eq_true] at hc
      simp only [hc] at hr
      simp at hr
  · intro hc
    rw [← hiff, Bool.not_eq_true] at hc
    unfold ewBinary broadcastShapes
    simp only [hc]
    simp
  · refine ⟨⟨[2, 3], [11, 22, 33, 14, 25, 36]⟩, ?_, rfl, rfl⟩
    norm_num [addArr, ewBinary, broadcastShapes, padShape, dimsCompatible, breadAt,
      unflattenIdx, flattenIdx, List.range_succ]
  · norm_num [addArr, ewBinary, broadcastShapes, padShape, dimsCompatible]

/-- Witness for `ew_broadcast_rule`: applying the rule to the notebook's
shapes (2,3) and (3,) yields a successful broadcast. -/
theorem ew_broadcast_rule_witness :
    ∃ r, ewBinary (fun x y => x + y) ⟨[2, 3], [1, 2, 3, 4, 5, 6]⟩ ⟨[3], [10, 20, 30]⟩ =
      Except.ok r :=
  (ew_broadcast_rule (fun x y => x + y) ⟨[2, 3], [1, 2, 3, 4, 5, 6]⟩
    ⟨[3], [10, 20, 30]⟩).1.mpr (by decide)

/-- C3: for the traced function `f(x) = x**2`, the reverse-mode gradient
evaluated at 3 is exactly 6, the forward value is 9, and the gradient
matches the central finite-difference approximation (step 1/1000) within
tolerance — for this quadratic the approximation is in fact exact. -/
theorem grad_square_at_three :
    grad fSquare (fun _ => 3) 0 = 6 ∧
    evalE fSquare (fun _ => 3) = 9 ∧
    fdiffCentral fSquare 3 (1 / 1000) = 6 ∧
    |grad fSquare (fun _ => 3) 0 - fdiffCentral fSquare 3 (1 / 1000)| ≤ 1 / 1000 := by
  refine ⟨?_, ?_, ?_, ?_⟩ <;>
    norm_num [grad, backprop, evalE, fSquare, fdiffCentral]

/-- C4: for the traced function `h(x, y) = x**2 + 3*x*y + y**2` at the
point (2, 1), multi-argument differentiation yields one gradient entry per
requested argument index: the partial derivative with respect to `x` is 7
and with respect to `y` is 8 (the forward value being 11). -/
theorem grad_hPoly_partials :
    grad hPoly (env2 2 1) 0 = 7 ∧
    grad hPoly (env2 2 1) 1 = 8 ∧
    gradMulti hPoly (env2 2 1) [0, 1] = [7, 8] ∧
    evalE hPoly (env2 2 1) = 11 := by
  refine ⟨?_, ?_, ?_, ?_⟩ <;>
    norm_num [grad, gradMulti, backprop, evalE, hPoly, env2]

/-- Reverse accumulation is linear in the propagated cotangent. -/
lemma backprop_ct (e : Expr) (ρ : Nat → ℚ) (j : Nat) :
    ∀ ct : ℚ, backprop e ρ ct j = ct * backprop e ρ 1 j := by
  induction e with
  | var i =>
      intro ct
      by_cases h : j = i <;> simp [backprop, h]
  | const c =>
      intro ct
      simp [backprop]
  | add a b iha ihb =>
      intro ct
      simp only [backprop]
      rw [iha ct, ihb ct]
      ring
  | sub a b iha ihb =>
      intro ct
      simp only [backprop]
      rw [iha ct, ihb ct]
      ring
  | mul a b iha ihb =>
      intro ct
      simp only [backprop]
      rw [iha (ct * evalE b ρ), ihb (ct * evalE a ρ),
        iha (1 * evalE b ρ), ihb (1 * evalE a ρ)]
      ring
  | npow a n iha =>
      intro ct
      simp only [backprop]
      rw [iha (ct * ((n : ℚ) * evalE a ρ ^ (n - 1))),
        iha (1 * ((n : ℚ) * evalE a ρ ^ (n - 1)))]
      ring

/-- C5: the combined one-pass `value_and_grad` is extensionally equal to
calling the forward evaluation and the reverse-mode gradient separately:
for every traced function and every input, its first component is the
forward value and its second component agrees with `grad` at every
argument index. -/
theorem value_and_grad_eq (e : Expr) (ρ : Nat → ℚ) :
    (value_and_grad e ρ).1 = evalE e ρ ∧
    ∀ j, (value_and_grad e ρ).2 j = grad e ρ j := by
  induction e with
  | var i =>
      exact ⟨rfl, fun j => rfl⟩
  | const c =>
      exact ⟨rfl, fun j => rfl⟩
  | add a b iha ihb =>
      refine ⟨?_, fun j => ?_⟩
      · simp only [value_and_grad, evalE, iha.1, ihb.1]
      · simp only [value_and_grad, grad, backprop, iha.2 j, ihb.2 j]
  | sub a b iha ihb =>
      refine ⟨?_, fun j => ?_⟩
      · simp only [value_and_grad, evalE, iha.1, ihb.1]
      · simp only [value_and_grad, grad, backprop, iha.2 j, ihb.2 j]
  | mul a b iha ihb =>
      refine ⟨?_, fun j => ?_⟩
      · simp only [value_and_grad, evalE, iha.1, ihb.1]
      · simp only [value_and_grad, grad, backprop] at *
        rw [iha.2 j, ihb.2 j, iha.1, ihb.1,
          backprop_ct a ρ j (1 * evalE b ρ), backprop_ct b ρ j (1 * evalE a ρ)]
        ring
  | npow a n iha =>
      refine ⟨?_, fun j => ?_⟩
      · simp only [value_and_grad, evalE, iha.1]
      · simp only [value_and_grad, grad, backprop] at *
        rw [iha.2 j, iha.1,
          backprop_ct a ρ j (1 * ((n : ℚ) * evalE a ρ ^ (n - 1)))]
        ring

/-- A signature with one vector argument of shape (2,), as in the
notebook's first two `add_multiply` calls. -/
def sigVec2 : Sig := ⟨[[2]], ["float32"], []⟩

/-- A signature with one vector argument of shape (3,), as in the
notebook's third `add_multiply` call. -/
def sigVec3 : Sig := ⟨[[3]], ["float32"], []⟩

/-- C6: two successive calls through `compile(f)` whose arguments have the
same signature (same shapes/dtypes of non-static arguments and same static
values) trigger exactly one trace/build — the second call is a cache hit
executing the stored plan without retracing — and a subsequent call with a
different signature triggers exactly one additional build. -/
theorem compile_cache_builds (s1 s2 : Sig) (h : s1 ≠ s2) :
    (jitCalls initJit [s1, s1]).1.builds = 1 ∧
    (jitCalls initJit [s1, s1]).2 = [false, true] ∧
    (jitCalls initJit [s1, s1, s2]).1.builds = 2 ∧
    (jitCalls initJit [s1, s1, s2]).2 = [false, true, false] := by
  have h2 : ¬ s2 = s1 := fun hc => h hc.symm
  refine ⟨?_, ?_, ?_, ?_⟩ <;>
    simp [jitCalls, jitCall, initJit, h2]

/-- Witness for `compile_cache_builds`: the notebook's `add_multiply`
call sequence — shape (2,), shape (2,) again, then shape (3,). -/
theorem compile_cache_builds_witness :
    (jitCalls initJit [sigVec2, sigVec2]).1.builds = 1 ∧
    (jitCalls initJit [sigVec2, sigVec2]).2 = [false, true] ∧
    (jitCalls initJit [sigVec2, sigVec2, sigVec3]).1.builds = 2 ∧
    (jitCalls initJit [sigVec2, sigVec2, sigVec3]).2 = [false, true, false] :=
  compile_cache_builds sigVec2 sigVec3 (by decide)

/-- A host expression that mentions a placeholder argument evaluates to a
placeholder at trace time. -/
lemma teval_none_of_mentions (c : HExpr) (ρ : Nat → Option ℚ) (i : Nat) :
    c.mentions i = true → ρ i = none → teval c ρ = none := by
  induction c with
  | arg k =>
      intro hm hρ
      simp only [HExpr.mentions, beq_iff_eq] at hm
      subst hm
      simpa [teval] using hρ
  | lit c =>
      intro hm _
      simp [HExpr.mentions] at hm
  | add a b iha ihb =>
      intro hm hρ
      simp only [HExpr.mentions, Bool.or_eq_true] at hm
      rcases hm with hm | hm
      · cases htb : teval b ρ <;> simp [teval, iha hm hρ, htb]
      · cases hta : teval a ρ <;> simp [teval, ihb hm hρ, hta]
  | mul a b iha ihb =>
      intro hm hρ
      simp only [HExpr.mentions, Bool.or_eq_true] at hm
      rcases hm with hm | hm
      · cases htb : teval b ρ <;> simp [teval, iha hm hρ, htb]
      · cases hta : teval a ρ <;> simp [teval, ihb hm hρ, hta]

/-- C7: whenever the host-level control flow of a function handed to
`gradient` or `compile` — a branch condition or a loop bound — depends on
the value of a traced (non-static) argument, tracing fails at trace time
with the distinct `UnsupportedTraceControlFlow` error instead of
producing a plan; in particular the notebook's `bad_python_if` (host `if`
on a traced condition) and `bad_dynamic_loop` (host loop bound from a
traced argument) fail while `good_static_loop` (the bound marked static)
traces successfully. -/
theorem trace_control_flow_error :
    (∀ (c : HExpr) (t e : HProg) (ρ : Nat → Option ℚ) (i : Nat),
        c.mentions i = true → ρ i = none →
        traceProg (HProg.hostIf c t e) ρ =
          Except.error TraceError.UnsupportedTraceControlFlow) ∧
    (∀ (b : HExpr) (body : HProg) (ρ : Nat → Option ℚ) (i : Nat),
        b.mentions i = true → ρ i = none →
        traceProg (HProg.hostFor b body) ρ =
          Except.error TraceError.UnsupportedTraceControlFlow) ∧
    traceProg bad_python_if allTracedEnv =
      Except.error TraceError.UnsupportedTraceControlFlow ∧
    traceProg bad_dynamic_loop allTracedEnv =
      Except.error TraceError.UnsupportedTraceControlFlow ∧
    traceProg bad_dynamic_loop staticBoundEnv = Except.ok () := by
  refine ⟨?_, ?_, ?_, ?_, ?_⟩
  · intro c t e ρ i hm hρ
    simp [traceProg, teval_none_of_mentions c ρ i hm hρ]
  · intro b body ρ i hm hρ
    simp [traceProg, teval_none_of_mentions b ρ i hm hρ]
  · rfl
  · rfl
  · rfl

/-- Witness for `trace_control_flow_error`: a host branch on the raw
traced argument 0 under the all-non-static environment fails at trace
time. -/
theorem trace_control_flow_error_witness :
    traceProg (HProg.hostIf (HExpr.arg 0) (HProg.ret (HExpr.lit 0))
        (HProg.ret (HExpr.lit 0))) allTracedEnv =
      Except.error TraceError.UnsupportedTraceControlFlow :=
  trace_control_flow_error.1 (HExpr.arg 0) (HProg.ret (HExpr.lit 0))
    (HProg.ret (HExpr.lit 0)) allTracedEnv 0 (by decide) rfl

/-- C8: a compiled function touching global mutable host state runs the
host side effect only while tracing — a cache hit executes the traced
operations of the stored plan only — so after two calls with the same
signature the counter has been incremented exactly once, and any call
whose signature is already in the plan table leaves the counter
untouched. -/
theorem cache_hit_skips_side_effect :
    (∀ s : Sig, (jitCallsCounter initJit 0 [s, s]).2 = 1) ∧
    (∀ (st : JitState) (c : Nat) (s : Sig), s ∈ st.plans →
      (jitCallCounter st c s).2 = c) := by
  constructor
  · intro s
    simp [jitCallsCounter, jitCallCounter, initJit]
  · intro st c s hs
    simp [jitCallCounter, hs]

/-- Witness for `cache_hit_skips_side_effect`: the notebook's
`bad_side_effect` called twice with shape (1,) inputs leaves the counter
at 1, and a hit on a stored signature does not touch it. -/
theorem cache_hit_skips_side_effect_witness :
    (jitCallsCounter initJit 0 [sigVec2, sigVec2]).2 = 1 ∧
    (jitCallCounter ⟨[sigVec2], 1⟩ 1 sigVec2).2 = 1 :=
  ⟨cache_hit_skips_side_effect.1 sigVec2,
    cache_hit_skips_side_effect.2 ⟨[sigVec2], 1⟩ 1 sigVec2 (by decide)⟩

/-- C9: `split` is a deterministic pure function of the key — any two
calls with the same key value produce identical pairs of derived keys
(two-run determinism / referential transparency); moreover the two keys
derived from the notebook's key 42 are new, distinct bit patterns. -/
theorem split_deterministic (k1 k2 : Nat) (h : k1 = k2) :
    split k1 = split k2 ∧
    (split k1).1 = (split k2).1 ∧
    (split k1).2 = (split k2).2 ∧
    (split 42).1 ≠ (split 42).2 ∧
    (split 42).1 ≠ 42 ∧ (split 42).2 ≠ 42 := by
  subst h
  refine ⟨rfl, rfl, rfl, ?_, ?_, ?_⟩ <;> decide

/-- Witness for `split_deterministic`: two calls of `split` on the
notebook's key 42 agree. -/
theorem split_deterministic_witness :
    split 42 = split 42 ∧
    (split 42).1 = (split 42).1 ∧
    (split 42).2 = (split 42).2 ∧
    (split 42).1 ≠ (split 42).2 ∧
    (split 42).1 ≠ 42 ∧ (split 42).2 ≠ 42 :=
  split_deterministic 42 42 rfl

/-- C10: differentiating a scalar-valued traced function with respect to
an Array argument yields a gradient Array with the same shape as the
input (and a well-formed buffer of the same length); for the notebook's
`matrix_function(W) = trace(W @ W.T)` at the 2×2 matrix [[1,2],[3,4]] the
gradient is the 2×2 matrix [[2,4],[6,8]] and the forward value is 30. -/
theorem gradient_shape_matches_input (e : Expr) (x : Arr) (hx : x.wf) :
    (gradArr e x).shape = x.shape ∧
    (gradArr e x).data.length = x.data.length ∧
    (gradArr e x).wf ∧
    gradArr (matrix_function 2) ⟨[2, 2], [1, 2, 3, 4]⟩ = ⟨[2, 2], [2, 4, 6, 8]⟩ ∧
    evalE (matrix_function 2) (fun k => ([1, 2, 3, 4] : List ℚ).getD k 0) = 30 := by
  refine ⟨rfl, ?_, ?_, ?_, ?_⟩
  · simp [gradArr]
  · unfold Arr.wf at hx ⊢
    simp [gradArr, hx]
  · norm_num [gradArr, grad, backprop, evalE, matrix_function, traceE, matMulE,
      transposeE, symVarMatrix, sumE, List.range_succ, List.flatMap_cons, List.getD]
  · norm_num [evalE, matrix_function, traceE, matMulE,
      transposeE, symVarMatrix, sumE, List.range_succ, List.flatMap_cons, List.getD]

/-- Witness for `gradient_shape_matches_input`: the 2×2 input of the
notebook's matrix example. -/
theorem gradient_shape_matches_input_witness :
    (gradArr (matrix_function 2) ⟨[2, 2], [1, 2, 3, 4]⟩).shape = [2, 2] ∧
    (gradArr (matrix_function 2) ⟨[2, 2], [1, 2, 3, 4]⟩).data.length =
      ([1, 2, 3, 4] : List ℚ).length ∧
    (gradArr (matrix_function 2) ⟨[2, 2], [1, 2, 3, 4]⟩).wf ∧
    gradArr (matrix_function 2) ⟨[2, 2], [1, 2, 3, 4]⟩ = ⟨[2, 2], [2, 4, 6, 8]⟩ ∧
    evalE (matrix_function 2) (fun k => ([1, 2, 3, 4] : List ℚ).getD k 0) = 30 :=
  gradient_shape_matches_input (matrix_function 2) ⟨[2, 2], [1, 2, 3, 4]⟩ (by decide)

end JaxModel
